import Mathlib

/-!
Shallow embedding of the session orchestrator of the `ll_web_agent`
repository: the orchestration finite-state machine
(`backend/src/orchestrator/fsm.ts`), the surrounding `Orchestrator`
(`backend/src/orchestrator/Orchestrator.ts`), and the refinement bridge
(`refineStepArgumentsWithSnapshot` in the parser module).

Modelling conventions for JavaScript values:
* argument values (TypeScript `any`) are the inductive `Value`; the embedded
  code only ever compares them against the sentinel string `"<UNKNOWN>"`;
* `null` / `undefined` fields are `Option`;
* error payloads (`payload.error : any`) are `Option String`: every error
  value the callers pass (code/message records, `Error` instances, nonempty
  string literals) is truthy, so `isSome` models JS truthiness of `error`;
* a JS string is truthy iff it is nonempty (`jsTruthyStr`).
-/

namespace LlWebAgent

/-- A JavaScript argument value as far as the orchestrator inspects it. -/
inductive Value
  | vStr (s : String)
  | vNum (n : Int)
  | vBool (b : Bool)
  | vNull
deriving DecidableEq, Repr

/-- `Orchestrator.ts:11-15` (`McpToolCall`): one planned tool invocation.
`arguments` is the JS object as an association list. -/
structure McpToolCall where
  tool_name : String
  arguments : List (String × Value)
  tool_call_id : Option String := none
deriving DecidableEq, Repr

/-- `fsm.ts:9-16` (`OrchestratorState`). -/
inductive OrchestratorState
  | IDLE
  | WAIT_CONFIRM
  | EXECUTE
  | WAIT_MCP_RESPONSE
  | WAIT_LLM_RESPONSE
  | ERROR
deriving DecidableEq, Repr

/-- `fsm.ts:21-32` (`OrchestratorEvent`). -/
inductive OrchestratorEvent
  | PARSING_COMPLETE
  | PARSING_FAILED
  | CONFIRM_STEP
  | REJECT_STEP
  | MCP_RESPONSE_RECEIVED
  | LLM_RESPONSE_RECEIVED
  | LLM_RESPONSE_FAILED
  | STEP_FAILED
  | CANCEL_SESSION
  | RESET
deriving DecidableEq, Repr

/-- `fsm.ts:93`: the optional payload handed to `dispatch`.  The `reason` and
`stepId` fields of the source are used only in log lines and are omitted. -/
structure Payload where
  steps : Option (List McpToolCall) := none
  snapshot : Option String := none
  refinedStep : Option McpToolCall := none
  error : Option String := none
deriving DecidableEq, Repr

/-- `fsm.ts:35-43` (`FsmContext`). `currentStepIndex` is an `Int` because the
source uses `-1` for "no step selected yet". -/
structure FsmContext where
  retryCount : Nat
  currentStepIndex : Int
  totalSteps : Nat
  steps : List McpToolCall
  latestSnapshot : Option String
  stepToConfirm : Option McpToolCall
  lastError : Option String
deriving DecidableEq, Repr

/-- `fsm.ts:63-73` (`resetContext`). -/
def resetContext : FsmContext :=
  { retryCount := 0
    currentStepIndex := -1
    totalSteps := 0
    steps := []
    latestSnapshot := none
    stepToConfirm := none
    lastError := none }

/-- `fsm.ts:46`: `MAX_RETRIES = 0`, the configured per-step retry budget. -/
def MAX_RETRIES : Nat := 0

/-- JS truthiness of a possibly-null string (`!!x`): null, undefined and the
empty string are falsy. -/
def jsTruthyStr (o : Option String) : Bool :=
  o.getD "" ≠ ""

/-- JS assignment `arr[i] = x` for an array modelled as a list: a negative
index creates a keyed property and leaves the array elements unchanged; an
in-range index overwrites.  (An out-of-range positive index would lengthen a
JS array; the FSM only ever assigns at the in-range `currentStepIndex`.) -/
def jsArraySet (l : List McpToolCall) (i : Int) (a : McpToolCall) : List McpToolCall :=
  if i < 0 then l else l.set i.toNat a

/-- Loop body of `fsm.ts:303-313`: walk the steps still to scan (those from
position `i` on), returning the position of the first one whose `tool_name`
is not `browser_snapshot`, or `-1` if the scan runs off the end. -/
def findNextExecutableStepFrom : List McpToolCall → Nat → Int
  | [], _ => -1
  | st :: rest, i =>
    if st.tool_name ≠ "browser_snapshot" then (i : Int)
    else findNextExecutableStepFrom rest (i + 1)

/-- `fsm.ts:303-313` (`findNextExecutableStep`): the scan starts at index
`currentIndex + 1`; an empty (or missing) step list yields `-1` immediately. -/
def findNextExecutableStep (steps : List McpToolCall) (currentIndex : Int) : Int :=
  if steps.isEmpty then -1
  else findNextExecutableStepFrom (steps.drop (currentIndex + 1).toNat) (currentIndex + 1).toNat

/-- `fsm.ts:320-325` (`checkRefinementNeeded`): true iff some argument value
is the sentinel `<UNKNOWN>`.  A missing step needs no refinement. -/
def checkRefinementNeeded (step : Option McpToolCall) : Bool :=
  match step with
  | none => false
  | some st => st.arguments.any (fun kv => kv.2 == Value.vStr "<UNKNOWN>")

/-- `fsm.ts:105-137`: transitions out of `IDLE`.  Note that the source guard
is `payload?.steps`, and a JS array — even an empty one — is truthy, so an
empty parsed list also takes the `PARSING_COMPLETE` branch. -/
def dispatchIdle (c : FsmContext) (e : OrchestratorEvent) (p : Payload) :
    OrchestratorState × FsmContext :=
  match e, p.steps with
  | .PARSING_COMPLETE, some steps =>
      let c1 : FsmContext :=
        { c with
          steps := steps
          totalSteps := steps.length
          currentStepIndex := -1
          latestSnapshot := none
          stepToConfirm := none
          lastError := none
          retryCount := 0 }
      let firstExecutableIndex := findNextExecutableStep c1.steps c1.currentStepIndex
      if firstExecutableIndex ≠ -1 then
        (.WAIT_CONFIRM,
          { c1 with
            currentStepIndex := firstExecutableIndex
            stepToConfirm := c1.steps[firstExecutableIndex.toNat]? })
      else
        (.IDLE, resetContext)
  | .PARSING_FAILED, _ =>
      (.ERROR, { c with lastError := some (p.error.getD "Parsing failed") })
  | _, _ => (.IDLE, c)

/-- `fsm.ts:139-159`: transitions out of `WAIT_CONFIRM`. -/
def dispatchWaitConfirm (c : FsmContext) (e : OrchestratorEvent) :
    OrchestratorState × FsmContext :=
  match e with
  | .CONFIRM_STEP =>
      if c.stepToConfirm.isSome && (c.currentStepIndex != -1) then
        (.EXECUTE, { c with stepToConfirm := none, retryCount := 0 })
      else
        (.ERROR, { c with lastError := some "Internal error during confirmation" })
  | .REJECT_STEP | .CANCEL_SESSION => (.IDLE, resetContext)
  | _ => (.WAIT_CONFIRM, c)

/-- `fsm.ts:161-240`: transitions out of `EXECUTE`.  Line 165 stores
`payload?.snapshot ?? null` unconditionally, before the error check. -/
def dispatchExecute (maxRetries : Nat) (c : FsmContext) (e : OrchestratorEvent)
    (p : Payload) : OrchestratorState × FsmContext :=
  match e with
  | .MCP_RESPONSE_RECEIVED =>
      let c1 := { c with latestSnapshot := p.snapshot }
      match p.error with
      | some err =>
          let c2 := { c1 with lastError := some err }
          if c2.retryCount < maxRetries then
            (.EXECUTE, { c2 with retryCount := c2.retryCount + 1 })
          else
            (.ERROR, c2)
      | none =>
          let nextExecutableIndex := findNextExecutableStep c1.steps c1.currentStepIndex
          if nextExecutableIndex ≠ -1 then
            let c2 := { c1 with currentStepIndex := nextExecutableIndex, retryCount := 0 }
            let nextStep := c2.steps[c2.currentStepIndex.toNat]?
            if checkRefinementNeeded nextStep then
              if jsTruthyStr c2.latestSnapshot then
                (.WAIT_LLM_RESPONSE, c2)
              else
                (.ERROR, { c2 with lastError := some "Refinement required but snapshot missing" })
            else
              (.WAIT_CONFIRM, { c2 with stepToConfirm := nextStep })
          else
            (.IDLE, resetContext)
  | .STEP_FAILED =>
      let c2 := { c with lastError := some (p.error.getD "Step execution failed") }
      if c2.retryCount < maxRetries then
        (.EXECUTE, { c2 with retryCount := c2.retryCount + 1 })
      else
        (.ERROR, c2)
  | .CANCEL_SESSION => (.IDLE, resetContext)
  | _ => (.EXECUTE, c)

/-- `fsm.ts:242-270`: transitions out of `WAIT_LLM_RESPONSE`. -/
def dispatchWaitLlm (maxRetries : Nat) (c : FsmContext) (e : OrchestratorEvent)
    (p : Payload) : OrchestratorState × FsmContext :=
  match e, p.refinedStep with
  | .LLM_RESPONSE_RECEIVED, some refinedStep =>
      (.WAIT_CONFIRM,
        { c with
          steps := jsArraySet c.steps c.currentStepIndex refinedStep
          stepToConfirm := some refinedStep
          retryCount := 0 })
  | .LLM_RESPONSE_FAILED, _ =>
      let c2 := { c with lastError := some (p.error.getD "LLM refinement failed") }
      if c2.retryCount < maxRetries then
        (.WAIT_LLM_RESPONSE, { c2 with retryCount := c2.retryCount + 1 })
      else
        (.ERROR, c2)
  | .CANCEL_SESSION, _ => (.IDLE, resetContext)
  | _, _ => (.WAIT_LLM_RESPONSE, c)

/-- `fsm.ts:272-279`: transitions out of `ERROR`. -/
def dispatchError (c : FsmContext) (e : OrchestratorEvent) :
    OrchestratorState × FsmContext :=
  match e with
  | .RESET | .CANCEL_SESSION => (.IDLE, resetContext)
  | _ => (.ERROR, c)

/-- Result of one `dispatch` call: the new state and context, plus the
`onStateUpdate` notifications issued (`fsm.ts:286-294` fires the callback
exactly when the state changed, passing the new state and a context copy). -/
structure DispatchResult where
  state : OrchestratorState
  ctx : FsmContext
  notifications : List (OrchestratorState × FsmContext)
deriving DecidableEq, Repr

/-- `fsm.ts:91-295` (`dispatch`): the single FSM entry point.
`WAIT_MCP_RESPONSE` has no case in the source switch, so every event leaves
it unchanged. -/
def dispatch (maxRetries : Nat) (s : OrchestratorState) (c : FsmContext)
    (e : OrchestratorEvent) (p : Payload) : DispatchResult :=
  let r : OrchestratorState × FsmContext :=
    match s with
    | .IDLE => dispatchIdle c e p
    | .WAIT_CONFIRM => dispatchWaitConfirm c e
    | .EXECUTE => dispatchExecute maxRetries c e p
    | .WAIT_MCP_RESPONSE => (.WAIT_MCP_RESPONSE, c)
    | .WAIT_LLM_RESPONSE => dispatchWaitLlm maxRetries c e p
    | .ERROR => dispatchError c e
  { state := r.1
    ctx := r.2
    notifications := if r.1 ≠ s then [(r.1, r.2)] else [] }

/-- A sample navigation step used by concrete scenarios. -/
def navStep : McpToolCall :=
  { tool_name := "browser_navigate"
    arguments := [("url", Value.vStr "https://example.com")]
    tool_call_id := some "step_0" }

/-- A sample click step whose target reference is still unresolved. -/
def clickUnknownStep : McpToolCall :=
  { tool_name := "browser_click"
    arguments := [("ref", Value.vStr "<UNKNOWN>"), ("element", Value.vStr "first result")]
    tool_call_id := some "step_1" }

/-- A sample typing step with fully-resolved arguments. -/
def typeStep : McpToolCall :=
  { tool_name := "browser_type"
    arguments := [("ref", Value.vStr "e12"), ("text", Value.vStr "hello")]
    tool_call_id := some "step_2" }

/-- A diagnostic snapshot-only step. -/
def snapshotStep : McpToolCall :=
  { tool_name := "browser_snapshot"
    arguments := []
    tool_call_id := some "snapshot_0" }

/-- Outcome of one `executeStep` call: either an immediate `STEP_FAILED`
dispatch into the FSM with no network traffic, or a `tools/call` JSON-RPC
POST to the remote automation server. -/
inductive ExecuteOutcome
  | stepFailedDispatch (code : Int) (message : String)
  | networkCall (toolName : String) (args : List (String × Value))
deriving DecidableEq, Repr

/-- `Orchestrator.ts:293-346` (`executeStep`).  The method checks only that
the MCP session is initialized (`this.sessionId && this.sseUrl`); when it is
not, it dispatches `STEP_FAILED` (code −32002, "Session not initialized")
and returns without network traffic.  When it is, it POSTs a `tools/call`
request carrying the step's own `tool_name` and `arguments` verbatim.  The
session's tool catalog (`this.dynamicToolMap`, built by
`initializeMcpSession` at `Orchestrator.ts:98-109`) is an argument here so
that theorems can state that the method never reads it: no branch of the
source consults the map or mentions any tool-resolution error. -/
def executeStep (sessionInitialized : Bool) (dynamicToolMap : List (String × String))
    (step : McpToolCall) : ExecuteOutcome :=
  if !sessionInitialized then
    ExecuteOutcome.stepFailedDispatch (-32002) "Session not initialized"
  else
    have _unused := dynamicToolMap
    ExecuteOutcome.networkCall step.tool_name step.arguments

/-- `Orchestrator.ts:543-546`: give each parsed step a `tool_call_id` when
the parser did not.  (The source appends a timestamp to the generated id;
the id text plays no role in control flow and is modelled
deterministically.) -/
def assignIds (steps : List McpToolCall) : List McpToolCall :=
  steps.enum.map fun is =>
    { is.2 with tool_call_id := some (is.2.tool_call_id.getD ("step_" ++ toString is.1)) }

/-- Outcome of `startSession`: either the method throws (reports an error to
its HTTP caller) or it returns the parsed step list, with the session's FSM
left in the given state/context. -/
inductive StartOutcome
  | thrown (message : String)
  | ok (steps : List McpToolCall) (fsmState : OrchestratorState) (fsmCtx : FsmContext)
deriving DecidableEq, Repr

/-- `Orchestrator.ts:491-561` (`startSession`).  Inputs: `initResult` is the
outcome of `initializeMcpSession` (the advertised tool names, or a
connection failure), and `parsed` is the result of `parseInstruction` —
which resolves with `[]` on any parser failure and never throws.  The body:
an initialization failure, or an empty tools list, is re-thrown as a session
initialization error; otherwise a fresh FSM (state `IDLE`, `resetContext`)
receives `PARSING_COMPLETE` with the id-annotated steps — even when `parsed`
is empty, since an empty JS array is truthy — and the step list is returned
to the caller. -/
def startSession (initResult : Except String (List String))
    (parsed : List McpToolCall) : StartOutcome :=
  match initResult with
  | .error e => .thrown ("Session initialization failed: " ++ e)
  | .ok toolsList =>
    if toolsList.isEmpty then
      .thrown "Session initialization failed: Failed to retrieve tools list from MCP."
    else
      let sessionSteps := assignIds parsed
      let d := dispatch MAX_RETRIES .IDLE resetContext .PARSING_COMPLETE
        { steps := some sessionSteps }
      .ok sessionSteps d.state d.ctx

/-- One in-flight `tools/call` request: the session that issued it and the
SSE stream (`endpointEs`) its asynchronous response will arrive on. -/
structure LifeRequest where
  sid : Nat
  stream : Nat
deriving DecidableEq, Repr

/-- Session/stream lifecycle state of the `Orchestrator`.  `openStream`
models `endpointEs`/`sessionId`/`sseUrl`, which the source sets when the SSE
stream is established and clears together; `session` models `this.session`
(the identity of the current `SessionData`/FSM object).  The counters issue
fresh identities; `requests` records the requests POSTed so far. -/
structure OrchLife where
  streamCounter : Nat
  openStream : Option Nat
  sessionCounter : Nat
  session : Option Nat
  requests : List LifeRequest
deriving DecidableEq, Repr

/-- Construction state of the `Orchestrator` (`Orchestrator.ts:33-52`): no
stream, no session. -/
def lifeInit : OrchLife :=
  { streamCounter := 0, openStream := none, sessionCounter := 0, session := none, requests := [] }

/-- `Orchestrator.ts:54-66` (`resetSession`): close the SSE stream, clear
`sessionId`/`sseUrl` and drop the session object. -/
def resetSession (st : OrchLife) : OrchLife :=
  { st with openStream := none, session := none }

/-- The lifecycle-relevant operations of the orchestrator. -/
inductive LifeOp
  | startSessionOk
  | startSessionFailed
  | issueRequest
  | sessionToIdle
  | sessionError
deriving DecidableEq, Repr

/-- One lifecycle operation:
* `startSessionOk` — `startSession` (`Orchestrator.ts:491-553`): an existing
  session is reset first; `initializeMcpSession` (`Orchestrator.ts:72-78`)
  reuses the stream when `sessionId` and `endpointEs` are still set and
  otherwise opens a fresh one; then the new `SessionData` is installed.
* `startSessionFailed` — the catch block (`Orchestrator.ts:555-560`):
  `resetSession` after the possible initial reset; nothing installed.
* `issueRequest` — `executeStep` (`Orchestrator.ts:293-346`) POSTs a request
  only when the session is initialized; its response will arrive on the
  current stream and is issued by the current session.
* `sessionToIdle` — the FSM returned to `IDLE` (completion, cancel, reject,
  confirmation timeout): `handleFsmUpdate` (`Orchestrator.ts:369-375`) only
  clears the confirmation timer, so the session object and stream survive.
* `sessionError` — the FSM entered `ERROR`: `handleFsmUpdate`
  (`Orchestrator.ts:469-474`) calls `resetSession`. -/
def lifeStep (st : OrchLife) : LifeOp → OrchLife
  | .startSessionOk =>
    let st1 := if st.session.isSome then resetSession st else st
    let st2 :=
      match st1.openStream with
      | some _ => st1
      | none =>
        { st1 with openStream := some st1.streamCounter, streamCounter := st1.streamCounter + 1 }
    { st2 with session := some st2.sessionCounter, sessionCounter := st2.sessionCounter + 1 }
  | .startSessionFailed =>
    resetSession (if st.session.isSome then resetSession st else st)
  | .issueRequest =>
    match st.session, st.openStream with
    | some s, some str => { st with requests := { sid := s, stream := str } :: st.requests }
    | _, _ => st
  | .sessionToIdle => st
  | .sessionError => resetSession st

/-- Run the orchestrator lifecycle from construction through a sequence of
operations. -/
def lifeRun (ops : List LifeOp) : OrchLife :=
  ops.foldl lifeStep lifeInit

/-- `Orchestrator.ts:148-208`: the SSE message handler only runs while its
stream is open; on a JSON-RPC response it dispatches `MCP_RESPONSE_RECEIVED`
into the FSM of `this.session` when a session exists and otherwise drops the
message with a warning.  The result is the session the response is
dispatched into, if any. -/
def deliverResponse (st : OrchLife) (r : LifeRequest) : Option Nat :=
  if st.openStream = some r.stream then st.session else none

/-- The parser-side `Call` record (`types/mcp`): a JSON-RPC call with the
tool name in `method` and the arguments object in `params`.  The
orchestrator builds it from a step as `method := tool_name`,
`params := arguments` (`Orchestrator.ts:434-439`). -/
structure Call where
  id : Int
  method : String
  params : List (String × Value)
deriving DecidableEq, Repr

/-- `truncateSnapshot` (parser module, lines 239-246): an oversized snapshot
keeps a head and a tail segment around a marker. -/
def truncateSnapshot (snapshot : String) (maxLength : Nat := 10000) : String :=
  if snapshot.length > maxLength then
    let halfLength := maxLength / 2 - 10
    (snapshot.take halfLength) ++ "... (truncated) ..." ++
      (snapshot.drop (snapshot.length - halfLength))
  else
    snapshot

/-- Outcome of the refinement bridge: a (possibly) refined call, or a thrown
refinement error. -/
inductive RefineResult
  | refined (call : Call)
  | failed (message : String)
deriving DecidableEq, Repr

/-- `refineStepArgumentsWithSnapshot` (parser module, lines 256-352).  The
external LLM round trip (prompt construction, the Anthropic call, JSON
extraction from the reply) is abstracted as `llm`, mapping the tool name,
the original arguments and the truncated snapshot either to the parsed
refined-arguments object or to a failure (API error, unparseable output,
non-object output — all thrown as refinement errors).  The returned flag
records whether that external collaborator was invoked.  The source guards
`callToRefine.params` against non-object values; the orchestrator always
passes the step's `arguments` object, modelled by `params` being an
association list, so `originalParams` is `params` itself. -/
def refineStepArgumentsWithSnapshot
    (llm : String → List (String × Value) → String → Except String (List (String × Value)))
    (callToRefine : Call) (snapshot : String) : Bool × RefineResult :=
  let originalParams := callToRefine.params
  let needsRefinement := originalParams.any (fun kv => kv.2 == Value.vStr "<UNKNOWN>")
  if !needsRefinement then
    (false, RefineResult.refined { callToRefine with params := originalParams })
  else
    match llm callToRefine.method originalParams (truncateSnapshot snapshot) with
    | .ok refinedParams =>
      (true, RefineResult.refined { callToRefine with params := refinedParams })
    | .error e => (true, RefineResult.failed ("LLM refinement failed: " ++ e))

theorem findNextExecutableStepFrom_spec :
    ∀ (l : List McpToolCall) (i : Nat),
      findNextExecutableStepFrom l i = -1 ∨
      ∃ j : Nat, findNextExecutableStepFrom l i = (j : Int) ∧ i ≤ j ∧
        ∃ st, l[j - i]? = some st ∧ st.tool_name ≠ "browser_snapshot"
  | [], _ => Or.inl rfl
  | st :: rest, i => by
    by_cases h : st.tool_name = "browser_snapshot"
    · have heq : findNextExecutableStepFrom (st :: rest) i
          = findNextExecutableStepFrom rest (i + 1) := by
        simp [findNextExecutableStepFrom, h]
      rcases findNextExecutableStepFrom_spec rest (i + 1) with h1 | ⟨j, hj, hle, st', hget, hsnap⟩
      · exact Or.inl (heq.trans h1)
      · refine Or.inr ⟨j, heq.trans hj, by omega, st', ?_, hsnap⟩
        have hsub : j - i = (j - (i + 1)) + 1 := by omega
        rw [hsub]
        simpa using hget
    · refine Or.inr ⟨i, ?_, le_refl i, st, ?_, h⟩
      · simp [findNextExecutableStepFrom, h]
      · simp

theorem findNextExecutableStep_spec (steps : List McpToolCall) (currentIndex : Int) :
    findNextExecutableStep steps currentIndex = -1 ∨
    ∃ k : Nat, findNextExecutableStep steps currentIndex = (k : Int) ∧
      currentIndex < (k : Int) ∧
      ∃ st, steps[k]? = some st ∧ st.tool_name ≠ "browser_snapshot" := by
  unfold findNextExecutableStep
  by_cases he : steps.isEmpty
  · simp [he]
  · simp only [he, Bool.false_eq_true, if_false]
    rcases findNextExecutableStepFrom_spec (steps.drop (currentIndex + 1).toNat)
        ((currentIndex + 1).toNat) with h1 | ⟨j, hj, hle, st, hget, hsnap⟩
    · exact Or.inl h1
    · refine Or.inr ⟨j, hj, ?_, st, ?_, hsnap⟩
      · have h2 : currentIndex + 1 ≤ (((currentIndex + 1).toNat : Nat) : Int) :=
          Int.self_le_toNat _
        have h3 : (((currentIndex + 1).toNat : Nat) : Int) ≤ (j : Int) := by exact_mod_cast hle
        omega
      · rw [List.getElem?_drop] at hget
        have harith : (currentIndex + 1).toNat + (j - (currentIndex + 1).toNat) = j := by omega
        rwa [harith] at hget

/-- The invariant tying the orchestrator's session, stream and in-flight
requests together: the stream is only open while a session (or the session
being torn down) owns it, identifiers are fresh, and a request whose stream
is still open belongs to the currently installed session. -/
def LifeInv (st : OrchLife) : Prop :=
  (st.session = none → st.openStream = none) ∧
  (∀ str, st.openStream = some str → str < st.streamCounter) ∧
  (∀ r ∈ st.requests, r.stream < st.streamCounter) ∧
  (∀ r ∈ st.requests, st.openStream = some r.stream → st.session = some r.sid)

theorem lifeInv_init : LifeInv lifeInit := by
  simp [LifeInv, lifeInit]

theorem lifeStep_startSessionOk_eq (st : OrchLife)
    (h1 : st.session = none → st.openStream = none) :
    lifeStep st .startSessionOk =
      { streamCounter := st.streamCounter + 1
        openStream := some st.streamCounter
        sessionCounter := st.sessionCounter + 1
        session := some st.sessionCounter
        requests := st.requests } := by
  rcases hs2 : st.session with _ | s
  · have hws := h1 hs2
    simp [lifeStep, hs2, hws]
  · simp [lifeStep, hs2, resetSession]

theorem lifeStep_startSessionFailed_eq (st : OrchLife) :
    lifeStep st .startSessionFailed = { st with openStream := none, session := none } := by
  simp only [lifeStep]
  split <;> simp [resetSession]

theorem lifeInv_step (st : OrchLife) (op : LifeOp) (h : LifeInv st) :
    LifeInv (lifeStep st op) := by
  obtain ⟨h1, h2, h3, h4⟩ := h
  cases op with
  | startSessionOk =>
    rw [lifeStep_startSessionOk_eq st h1]
    refine ⟨fun hcontra => Option.noConfusion hcontra, ?_, ?_, ?_⟩
    · intro str hstr
      have hstr2 : some st.streamCounter = some str := hstr
      injection hstr2 with hs2
      show str < st.streamCounter + 1
      omega
    · intro r hr
      have hr2 : r ∈ st.requests := hr
      have := h3 r hr2
      show r.stream < st.streamCounter + 1
      omega
    · intro r hr hstream
      exfalso
      have hr2 : r ∈ st.requests := hr
      have hlt := h3 r hr2
      have hstream2 : some st.streamCounter = some r.stream := hstream
      injection hstream2 with he
      omega
  | startSessionFailed =>
    rw [lifeStep_startSessionFailed_eq st]
    refine ⟨fun _ => rfl, ?_, ?_, ?_⟩
    · intro str hstr
      exact Option.noConfusion hstr
    · intro r hr
      exact h3 r hr
    · intro r _ hstream
      exact Option.noConfusion hstream
  | issueRequest =>
    rcases hses : st.session with _ | s
    · have heq : lifeStep st .issueRequest = st := by
        simp [lifeStep, hses]
      rw [heq]
      exact ⟨h1, h2, h3, h4⟩
    · rcases hstr : st.openStream with _ | str
      · have heq : lifeStep st .issueRequest = st := by
          simp [lifeStep, hses, hstr]
        rw [heq]
        exact ⟨h1, h2, h3, h4⟩
      · have heq : lifeStep st .issueRequest =
            { st with requests := { sid := s, stream := str } :: st.requests } := by
          simp [lifeStep, hses, hstr]
        rw [heq]
        refine ⟨?_, ?_, ?_, ?_⟩
        · intro hcontra
          have hc2 : st.session = none := hcontra
          rw [hses] at hc2
          exact Option.noConfusion hc2
        · intro s2 hs2
          have hs3 : st.openStream = some s2 := hs2
          exact h2 s2 hs3
        · intro r hr
          have hr2 : r ∈ ({ sid := s, stream := str } : LifeRequest) :: st.requests := hr
          show r.stream < st.streamCounter
          rcases List.mem_cons.mp hr2 with hcase | hcase
          · rw [hcase]
            exact h2 str hstr
          · exact h3 r hcase
        · intro r hr hs2
          have hr2 : r ∈ ({ sid := s, stream := str } : LifeRequest) :: st.requests := hr
          have hs3 : st.openStream = some r.stream := hs2
          show st.session = some r.sid
          rcases List.mem_cons.mp hr2 with hcase | hcase
          · rw [hcase]
            exact hses
          · exact h4 r hcase hs3
  | sessionToIdle =>
    exact ⟨h1, h2, h3, h4⟩
  | sessionError =>
    refine ⟨fun _ => rfl, ?_, h3, ?_⟩
    · intro str hstr
      exact Option.noConfusion hstr
    · intro r _ hstream
      exact Option.noConfusion hstream

theorem lifeInv_run (ops : List LifeOp) : LifeInv (lifeRun ops) := by
  suffices h : ∀ st, LifeInv st → LifeInv (ops.foldl lifeStep st) from h lifeInit lifeInv_init
  induction ops with
  | nil => intro st h; exact h
  | cons op rest ih => intro st h; exact ih _ (lifeInv_step st op h)

theorem findNextExecutableStep_ne_neg_one (steps : List McpToolCall) (idx : Int)
    (h : findNextExecutableStep steps idx ≠ -1) :
    ∃ k : Nat, findNextExecutableStep steps idx = (k : Int) ∧ idx < (k : Int) ∧
      ∃ st, steps[k]? = some st ∧ st.tool_name ≠ "browser_snapshot" := by
  rcases findNextExecutableStep_spec steps idx with h1 | h2
  · exact absurd h1 h
  · exact h2

/-- Invariant behind the never-confirm-a-snapshot-step property: the step
offered for confirmation is never `browser_snapshot`, and while the FSM
waits for a refinement the step being refined is not `browser_snapshot`
either. -/
def ConfirmInv (s : OrchestratorState) (c : FsmContext) : Prop :=
  (∀ st, c.stepToConfirm = some st → st.tool_name ≠ "browser_snapshot") ∧
  (s = .WAIT_LLM_RESPONSE →
    ∀ st, c.steps[c.currentStepIndex.toNat]? = some st → st.tool_name ≠ "browser_snapshot")

theorem confirmInv_of_not_wait_llm (s : OrchestratorState) (c : FsmContext)
    (hs : s ≠ .WAIT_LLM_RESPONSE)
    (h1 : ∀ st, c.stepToConfirm = some st → st.tool_name ≠ "browser_snapshot") :
    ConfirmInv s c :=
  ⟨h1, fun hco => absurd hco hs⟩

theorem confirmInv_resetContext (s : OrchestratorState) : ConfirmInv s resetContext := by
  constructor
  · intro st hst
    exact Option.noConfusion hst
  · intro _ st hst
    simp [resetContext] at hst

/-- Environment constraint under which `LLM_RESPONSE_RECEIVED` events are
dispatched: the orchestrator (`Orchestrator.ts:422-461`) builds the refined
step from `session.steps[currentStepIndex]` via
`refineStepArgumentsWithSnapshot`, which replaces only the arguments and
keeps the method/tool name — so the refined step carries the tool name of
the step being refined. -/
def RefinedStepOk (c : FsmContext) (e : OrchestratorEvent) (p : Payload) : Prop :=
  ∀ refinedStep, e = .LLM_RESPONSE_RECEIVED → p.refinedStep = some refinedStep →
    ∃ cur, c.steps[c.currentStepIndex.toNat]? = some cur
      ∧ refinedStep.tool_name = cur.tool_name

theorem confirmInv_dispatchIdle (c : FsmContext) (e : OrchestratorEvent) (p : Payload)
    (h1 : ∀ st, c.stepToConfirm = some st → st.tool_name ≠ "browser_snapshot") :
    ConfirmInv (dispatchIdle c e p).1 (dispatchIdle c e p).2 := by
  cases e <;>
    first
    | exact confirmInv_of_not_wait_llm _ _ (fun hco => OrchestratorState.noConfusion hco) h1
    | skip
  case PARSING_COMPLETE =>
    rcases hps : p.steps with _ | steps
    · exact confirmInv_of_not_wait_llm _ _
        (by simp [dispatchIdle, hps]) (by simp [dispatchIdle, hps]; exact h1)
    · simp only [dispatchIdle, hps]
      split
      · rename_i hfei
        apply confirmInv_of_not_wait_llm _ _ (fun hco => OrchestratorState.noConfusion hco)
        intro st hst
        rcases findNextExecutableStep_ne_neg_one steps (-1) hfei with ⟨k, hk, _, st', hget, hsnap⟩
        have hst2 : steps[(findNextExecutableStep steps (-1)).toNat]? = some st := hst
        rw [hk] at hst2
        simp only [Int.toNat_natCast] at hst2
        rw [hget] at hst2
        injection hst2 with hst3
        rw [← hst3]
        exact hsnap
      · exact confirmInv_resetContext _

theorem confirmInv_dispatchWaitConfirm (c : FsmContext) (e : OrchestratorEvent)
    (h1 : ∀ st, c.stepToConfirm = some st → st.tool_name ≠ "browser_snapshot") :
    ConfirmInv (dispatchWaitConfirm c e).1 (dispatchWaitConfirm c e).2 := by
  cases e <;>
    first
    | exact confirmInv_of_not_wait_llm _ _ (fun hco => OrchestratorState.noConfusion hco) h1
    | skip
  case CONFIRM_STEP =>
    simp only [dispatchWaitConfirm]
    split
    · exact confirmInv_of_not_wait_llm _ _ (fun hco => OrchestratorState.noConfusion hco)
        (fun st hst => Option.noConfusion hst)
    · exact confirmInv_of_not_wait_llm _ _ (fun hco => OrchestratorState.noConfusion hco) h1
  case REJECT_STEP => exact confirmInv_resetContext _
  case CANCEL_SESSION => exact confirmInv_resetContext _

theorem confirmInv_dispatchExecute (m : Nat) (c : FsmContext) (e : OrchestratorEvent)
    (p : Payload)
    (h1 : ∀ st, c.stepToConfirm = some st → st.tool_name ≠ "browser_snapshot") :
    ConfirmInv (dispatchExecute m c e p).1 (dispatchExecute m c e p).2 := by
  cases e <;>
    first
    | exact confirmInv_of_not_wait_llm _ _ (fun hco => OrchestratorState.noConfusion hco) h1
    | skip
  case MCP_RESPONSE_RECEIVED =>
    rcases hpe : p.error with _ | err
    · simp only [dispatchExecute, hpe]
      split
      · rename_i hfei
        have hspec := findNextExecutableStep_ne_neg_one c.steps c.currentStepIndex hfei
        rcases hspec with ⟨k, hk, _, st', hget, hsnap⟩
        split
        · split
          · -- refinement needed, snapshot available: WAIT_LLM_RESPONSE
            refine ⟨h1, fun _ st hst => ?_⟩
            have hst2 : c.steps[(findNextExecutableStep c.steps c.currentStepIndex).toNat]?
                = some st := hst
            rw [hk] at hst2
            simp only [Int.toNat_natCast] at hst2
            rw [hget] at hst2
            injection hst2 with hst3
            rw [← hst3]
            exact hsnap
          · exact confirmInv_of_not_wait_llm _ _ (fun hco => OrchestratorState.noConfusion hco) h1
        · -- no refinement needed: WAIT_CONFIRM with the found step
          apply confirmInv_of_not_wait_llm _ _ (fun hco => OrchestratorState.noConfusion hco)
          intro st hst
          have hst2 : c.steps[(findNextExecutableStep c.steps c.currentStepIndex).toNat]?
              = some st := hst
          rw [hk] at hst2
          simp only [Int.toNat_natCast] at hst2
          rw [hget] at hst2
          injection hst2 with hst3
          rw [← hst3]
          exact hsnap
      · exact confirmInv_resetContext _
    · simp only [dispatchExecute, hpe]
      split
      · exact confirmInv_of_not_wait_llm _ _ (fun hco => OrchestratorState.noConfusion hco) h1
      · exact confirmInv_of_not_wait_llm _ _ (fun hco => OrchestratorState.noConfusion hco) h1
  case STEP_FAILED =>
    simp only [dispatchExecute]
    split
    · exact confirmInv_of_not_wait_llm _ _ (fun hco => OrchestratorState.noConfusion hco) h1
    · exact confirmInv_of_not_wait_llm _ _ (fun hco => OrchestratorState.noConfusion hco) h1
  case CANCEL_SESSION => exact confirmInv_resetContext _

theorem confirmInv_dispatchWaitLlm (m : Nat) (c : FsmContext) (e : OrchestratorEvent)
    (p : Payload)
    (h1 : ∀ st, c.stepToConfirm = some st → st.tool_name ≠ "browser_snapshot")
    (hllm : ∀ st, c.steps[c.currentStepIndex.toNat]? = some st →
      st.tool_name ≠ "browser_snapshot")
    (henv : RefinedStepOk c e p) :
    ConfirmInv (dispatchWaitLlm m c e p).1 (dispatchWaitLlm m c e p).2 := by
  cases e <;>
    first
    | exact ⟨h1, fun _ st hst => hllm st hst⟩
    | skip
  case LLM_RESPONSE_RECEIVED =>
    rcases hrs : p.refinedStep with _ | refinedStep
    · exact ⟨by simp [dispatchWaitLlm, hrs]; exact h1,
        by simp [dispatchWaitLlm, hrs]; exact fun st hst => hllm st hst⟩
    · simp only [dispatchWaitLlm, hrs]
      apply confirmInv_of_not_wait_llm _ _ (fun hco => OrchestratorState.noConfusion hco)
      intro st hst
      have hst2 : some refinedStep = some st := hst
      injection hst2 with hst3
      rcases henv refinedStep rfl hrs with ⟨cur, hcur, htool⟩
      rw [← hst3, htool]
      exact hllm cur hcur
  case LLM_RESPONSE_FAILED =>
    simp only [dispatchWaitLlm]
    split
    · exact ⟨h1, fun _ st hst => hllm st hst⟩
    · exact confirmInv_of_not_wait_llm _ _ (fun hco => OrchestratorState.noConfusion hco) h1
  case CANCEL_SESSION => exact confirmInv_resetContext _

theorem confirmInv_dispatchError (c : FsmContext) (e : OrchestratorEvent)
    (h1 : ∀ st, c.stepToConfirm = some st → st.tool_name ≠ "browser_snapshot") :
    ConfirmInv (dispatchError c e).1 (dispatchError c e).2 := by
  cases e <;>
    first
    | exact confirmInv_of_not_wait_llm _ _ (fun hco => OrchestratorState.noConfusion hco) h1
    | skip
  case RESET => exact confirmInv_resetContext _
  case CANCEL_SESSION => exact confirmInv_resetContext _

theorem confirmInv_dispatch (m : Nat) (s : OrchestratorState) (c : FsmContext)
    (e : OrchestratorEvent) (p : Payload) (hinv : ConfirmInv s c)
    (henv : RefinedStepOk c e p) :
    ConfirmInv (dispatch m s c e p).state (dispatch m s c e p).ctx := by
  obtain ⟨h1, hllm⟩ := hinv
  cases s
  case IDLE => exact confirmInv_dispatchIdle c e p h1
  case WAIT_CONFIRM => exact confirmInv_dispatchWaitConfirm c e h1
  case EXECUTE => exact confirmInv_dispatchExecute m c e p h1
  case WAIT_MCP_RESPONSE =>
    exact confirmInv_of_not_wait_llm _ _ (fun hco => OrchestratorState.noConfusion hco) h1
  case WAIT_LLM_RESPONSE => exact confirmInv_dispatchWaitLlm m c e p h1 (hllm rfl) henv
  case ERROR => exact confirmInv_dispatchError c e h1

/-- FSM states reachable through `dispatch` from the freshly constructed
machine (`fsm.ts:55-61`: state `IDLE`, context `resetContext`), for any
retry budget, under the environment constraint on refinement payloads. -/
inductive FsmReachable : OrchestratorState → FsmContext → Prop
  | init : FsmReachable .IDLE resetContext
  | step (m : Nat) (s : OrchestratorState) (c : FsmContext) (e : OrchestratorEvent)
      (p : Payload) (hr : FsmReachable s c) (henv : RefinedStepOk c e p) :
      FsmReachable (dispatch m s c e p).state (dispatch m s c e p).ctx

theorem confirmInv_reachable (s : OrchestratorState) (c : FsmContext)
    (h : FsmReachable s c) : ConfirmInv s c := by
  induction h with
  | init => exact confirmInv_resetContext _
  | step m s c e p hr henv ih => exact confirmInv_dispatch m s c e p ih henv

/-- The payload with every field absent. -/
def emptyPayload : Payload := {}

/-- Apply the same event and payload to the FSM `k` times in a row
(`k` consecutive identical failures, in the retry scenarios). -/
def iterateDispatch (m : Nat) (e : OrchestratorEvent) (p : Payload) :
    Nat → OrchestratorState × FsmContext → OrchestratorState × FsmContext
  | 0, sc => sc
  | k + 1, sc =>
    let d := dispatch m sc.1 sc.2 e p
    iterateDispatch m e p k (d.state, d.ctx)

theorem iterateDispatch_retryable (m : Nat) (e : OrchestratorEvent) (p : Payload)
    (s : OrchestratorState)
    (hstep : ∀ c : FsmContext, c.retryCount < m →
      (dispatch m s c e p).state = s ∧
      (dispatch m s c e p).ctx.retryCount = c.retryCount + 1 ∧
      (dispatch m s c e p).ctx.currentStepIndex = c.currentStepIndex) :
    ∀ (k : Nat) (c : FsmContext), c.retryCount + k ≤ m →
      (iterateDispatch m e p k (s, c)).1 = s ∧
      (iterateDispatch m e p k (s, c)).2.retryCount = c.retryCount + k ∧
      (iterateDispatch m e p k (s, c)).2.currentStepIndex = c.currentStepIndex := by
  intro k
  induction k with
  | zero => exact fun c _ => ⟨rfl, rfl, rfl⟩
  | succ k ih =>
    intro c hk
    have hlt : c.retryCount < m := by omega
    obtain ⟨hs, hr, hi⟩ := hstep c hlt
    have hrec := ih (dispatch m s c e p).ctx (by rw [hr]; omega)
    have hgoal : iterateDispatch m e p (k + 1) (s, c)
        = iterateDispatch m e p k ((dispatch m s c e p).state, (dispatch m s c e p).ctx) := rfl
    rw [hgoal, hs]
    refine ⟨hrec.1, ?_, ?_⟩
    · rw [hrec.2.1, hr]
      omega
    · rw [hrec.2.2, hi]

theorem iterateDispatch_exhaust (m : Nat) (e : OrchestratorEvent) (p : Payload)
    (s : OrchestratorState)
    (hstep : ∀ c : FsmContext, c.retryCount < m →
      (dispatch m s c e p).state = s ∧
      (dispatch m s c e p).ctx.retryCount = c.retryCount + 1 ∧
      (dispatch m s c e p).ctx.currentStepIndex = c.currentStepIndex)
    (hexhaust : ∀ c : FsmContext, ¬ c.retryCount < m → (dispatch m s c e p).state = .ERROR) :
    ∀ (k : Nat) (c : FsmContext), c.retryCount + k = m →
      (iterateDispatch m e p (k + 1) (s, c)).1 = .ERROR := by
  intro k
  induction k with
  | zero =>
    intro c hk
    show (iterateDispatch m e p 0
      ((dispatch m s c e p).state, (dispatch m s c e p).ctx)).1 = .ERROR
    exact hexhaust c (by omega)
  | succ k ih =>
    intro c hk
    have hlt : c.retryCount < m := by omega
    obtain ⟨hs, hr, _⟩ := hstep c hlt
    show (iterateDispatch m e p (k + 1)
      ((dispatch m s c e p).state, (dispatch m s c e p).ctx)).1 = .ERROR
    rw [hs]
    exact ih (dispatch m s c e p).ctx (by omega)

theorem dispatch_stepFailed_retry (m : Nat) (c : FsmContext) (p : Payload)
    (h : c.retryCount < m) :
    (dispatch m .EXECUTE c .STEP_FAILED p).state = .EXECUTE ∧
    (dispatch m .EXECUTE c .STEP_FAILED p).ctx.retryCount = c.retryCount + 1 ∧
    (dispatch m .EXECUTE c .STEP_FAILED p).ctx.currentStepIndex = c.currentStepIndex := by
  simp [dispatch, dispatchExecute, h]

theorem dispatch_stepFailed_exhaust (m : Nat) (c : FsmContext) (p : Payload)
    (h : ¬ c.retryCount < m) :
    (dispatch m .EXECUTE c .STEP_FAILED p).state = .ERROR := by
  simp [dispatch, dispatchExecute, h]

theorem dispatch_mcpError_retry (m : Nat) (c : FsmContext) (p : Payload) (err : String)
    (he : p.error = some err) (h : c.retryCount < m) :
    (dispatch m .EXECUTE c .MCP_RESPONSE_RECEIVED p).state = .EXECUTE ∧
    (dispatch m .EXECUTE c .MCP_RESPONSE_RECEIVED p).ctx.retryCount = c.retryCount + 1 ∧
    (dispatch m .EXECUTE c .MCP_RESPONSE_RECEIVED p).ctx.currentStepIndex
      = c.currentStepIndex := by
  simp [dispatch, dispatchExecute, he, h]

theorem dispatch_mcpError_exhaust (m : Nat) (c : FsmContext) (p : Payload) (err : String)
    (he : p.error = some err) (h : ¬ c.retryCount < m) :
    (dispatch m .EXECUTE c .MCP_RESPONSE_RECEIVED p).state = .ERROR := by
  simp [dispatch, dispatchExecute, he, h]

theorem dispatch_llmFailed_retry (m : Nat) (c : FsmContext) (p : Payload)
    (h : c.retryCount < m) :
    (dispatch m .WAIT_LLM_RESPONSE c .LLM_RESPONSE_FAILED p).state = .WAIT_LLM_RESPONSE ∧
    (dispatch m .WAIT_LLM_RESPONSE c .LLM_RESPONSE_FAILED p).ctx.retryCount
      = c.retryCount + 1 ∧
    (dispatch m .WAIT_LLM_RESPONSE c .LLM_RESPONSE_FAILED p).ctx.currentStepIndex
      = c.currentStepIndex := by
  simp [dispatch, dispatchWaitLlm, h]

theorem dispatch_llmFailed_exhaust (m : Nat) (c : FsmContext) (p : Payload)
    (h : ¬ c.retryCount < m) :
    (dispatch m .WAIT_LLM_RESPONSE c .LLM_RESPONSE_FAILED p).state = .ERROR := by
  simp [dispatch, dispatchWaitLlm, h]

theorem refineStepArgumentsWithSnapshot_method
    (llm : String → List (String × Value) → String → Except String (List (String × Value)))
    (callToRefine : Call) (snapshot : String) (c' : Call)
    (h : (refineStepArgumentsWithSnapshot llm callToRefine snapshot).2
      = RefineResult.refined c') :
    c'.method = callToRefine.method := by
  unfold refineStepArgumentsWithSnapshot at h
  dsimp only at h
  split at h
  · injection h with h2
    rw [← h2]
  · split at h
    · injection h with h2
      rw [← h2]
    · exact RefineResult.noConfusion h

/-- A context in mid-session: the FSM is working on step 0 of a two-step
plan. -/
def execCtx : FsmContext :=
  { resetContext with currentStepIndex := 0, steps := [navStep, typeStep], totalSteps := 2 }

/-- A payload carrying an error value. -/
def errPayload : Payload := { error := some "boom" }

/-- `execCtx` with a previously captured page snapshot. -/
def c6Ctx : FsmContext :=
  { execCtx with latestSnapshot := some "- Page Snapshot: body" }

/-- A refinement-bridge call with fully resolved arguments. -/
def navCall : Call :=
  { id := 1, method := "browser_navigate"
    params := [("url", Value.vStr "https://example.com")] }

/-- C1, counterexample: `browser_navigate` has no entry in the session's tool
catalog, the session is initialized, and `executeStep` nonetheless issues the
network call for the step — there is no fail-fast tool-resolution error and a
network call is attempted. -/
theorem c1_claim_false :
    (([("browser_click", "browser_click")].map Prod.fst).contains "browser_navigate")
      = false ∧
    executeStep true [("browser_click", "browser_click")] navStep
      = ExecuteOutcome.networkCall "browser_navigate"
          [("url", Value.vStr "https://example.com")] := by decide

/-- C1, amended: `executeStep` never consults the tool catalog and raises no
`ToolResolutionError` (no such error exists in the code): whenever the MCP
session is initialized it issues the network call with the step's own tool
name, whether or not that tool has a catalog entry; only an uninitialized
session fails fast, with a `STEP_FAILED` dispatch (code −32002,
"Session not initialized") and no network call. -/
theorem c1_executeStep_ignores_catalog (dynamicToolMap : List (String × String))
    (step : McpToolCall) :
    executeStep true dynamicToolMap step
      = ExecuteOutcome.networkCall step.tool_name step.arguments ∧
    executeStep false dynamicToolMap step
      = ExecuteOutcome.stepFailedDispatch (-32002) "Session not initialized" :=
  ⟨rfl, rfl⟩

/-- C2, counterexample: with `MAX_RETRIES = N = 1`, the claim says the 1st
(= Nth) consecutive failure of a step transitions to `ERROR`; in the code the
1st failure re-enters `EXECUTE` (the budget admits one retry), so the Nth
consecutive failure does not reach `ERROR`. -/
theorem c2_claim_false :
    (dispatch 1 .EXECUTE execCtx .STEP_FAILED emptyPayload).state = .EXECUTE ∧
    (dispatch 1 .EXECUTE execCtx .STEP_FAILED emptyPayload).state ≠ .ERROR := by decide

/-- C2, amended: with `MAX_RETRIES = N > 0`, failures 1..N of the same step
each re-attempt it — the FSM stays in `EXECUTE` (for execution failures,
whether reported as `STEP_FAILED` or as an MCP error result) or in
`WAIT_LLM_RESPONSE` (for refinement failures), `retryCount` counts the
failures and `currentStepIndex` does not change — and it is the (N+1)th
consecutive failure that transitions the FSM to `ERROR`. -/
theorem c2_retries_then_error (m : Nat) (_hm : 0 < m) (c : FsmContext)
    (hc : c.retryCount = 0) (p : Payload) (err : String) (he : p.error = some err)
    (k : Nat) (hk : k ≤ m) :
    ((iterateDispatch m .STEP_FAILED p k (.EXECUTE, c)).1 = .EXECUTE ∧
      (iterateDispatch m .STEP_FAILED p k (.EXECUTE, c)).2.retryCount = k ∧
      (iterateDispatch m .STEP_FAILED p k (.EXECUTE, c)).2.currentStepIndex
        = c.currentStepIndex) ∧
    (iterateDispatch m .STEP_FAILED p (m + 1) (.EXECUTE, c)).1 = .ERROR ∧
    ((iterateDispatch m .MCP_RESPONSE_RECEIVED p k (.EXECUTE, c)).1 = .EXECUTE ∧
      (iterateDispatch m .MCP_RESPONSE_RECEIVED p k (.EXECUTE, c)).2.retryCount = k ∧
      (iterateDispatch m .MCP_RESPONSE_RECEIVED p k (.EXECUTE, c)).2.currentStepIndex
        = c.currentStepIndex) ∧
    (iterateDispatch m .MCP_RESPONSE_RECEIVED p (m + 1) (.EXECUTE, c)).1 = .ERROR ∧
    ((iterateDispatch m .LLM_RESPONSE_FAILED p k (.WAIT_LLM_RESPONSE, c)).1
        = .WAIT_LLM_RESPONSE ∧
      (iterateDispatch m .LLM_RESPONSE_FAILED p k (.WAIT_LLM_RESPONSE, c)).2.retryCount = k ∧
      (iterateDispatch m .LLM_RESPONSE_FAILED p k (.WAIT_LLM_RESPONSE, c)).2.currentStepIndex
        = c.currentStepIndex) ∧
    (iterateDispatch m .LLM_RESPONSE_FAILED p (m + 1) (.WAIT_LLM_RESPONSE, c)).1
      = .ERROR := by
  have hstepSF : ∀ c2 : FsmContext, c2.retryCount < m → _ :=
    fun c2 h => dispatch_stepFailed_retry m c2 p h
  have hstepMCP : ∀ c2 : FsmContext, c2.retryCount < m → _ :=
    fun c2 h => dispatch_mcpError_retry m c2 p err he h
  have hstepLLM : ∀ c2 : FsmContext, c2.retryCount < m → _ :=
    fun c2 h => dispatch_llmFailed_retry m c2 p h
  have h1 := iterateDispatch_retryable m .STEP_FAILED p .EXECUTE hstepSF k c (by omega)
  have h2 := iterateDispatch_exhaust m .STEP_FAILED p .EXECUTE hstepSF
    (fun c2 h => dispatch_stepFailed_exhaust m c2 p h) m c (by omega)
  have h3 := iterateDispatch_retryable m .MCP_RESPONSE_RECEIVED p .EXECUTE hstepMCP k c
    (by omega)
  have h4 := iterateDispatch_exhaust m .MCP_RESPONSE_RECEIVED p .EXECUTE hstepMCP
    (fun c2 h => dispatch_mcpError_exhaust m c2 p err he h) m c (by omega)
  have h5 := iterateDispatch_retryable m .LLM_RESPONSE_FAILED p .WAIT_LLM_RESPONSE hstepLLM
    k c (by omega)
  have h6 := iterateDispatch_exhaust m .LLM_RESPONSE_FAILED p .WAIT_LLM_RESPONSE hstepLLM
    (fun c2 h => dispatch_llmFailed_exhaust m c2 p h) m c (by omega)
  refine ⟨⟨h1.1, ?_, h1.2.2⟩, h2, ⟨h3.1, ?_, h3.2.2⟩, h4, ⟨h5.1, ?_, h5.2.2⟩, h6⟩
  · rw [h1.2.1, hc]
    omega
  · rw [h3.2.1, hc]
    omega
  · rw [h5.2.1, hc]
    omega

/-- Witness for C2's amended theorem at `N = 2`: two consecutive failures
keep the FSM in `EXECUTE`, the third lands in `ERROR`. -/
theorem c2_retries_then_error_witness :
    (iterateDispatch 2 .STEP_FAILED errPayload 2 (.EXECUTE, execCtx)).1 = .EXECUTE ∧
    (iterateDispatch 2 .STEP_FAILED errPayload 3 (.EXECUTE, execCtx)).1 = .ERROR := by
  have h := c2_retries_then_error 2 (by decide) execCtx rfl errPayload "boom" rfl 2
    (by decide)
  exact ⟨h.1.1, h.2.1⟩

/-- C3: with the configured `MAX_RETRIES = 0`, every execution failure (a
`STEP_FAILED` event or an MCP error result received in `EXECUTE`) and every
refinement failure (received in `WAIT_LLM_RESPONSE`) transitions the FSM
directly to `ERROR` with `lastError` populated, and no retry occurs
(`retryCount` is not incremented). -/
theorem c3_zero_retries_every_failure_fatal (c : FsmContext) (p : Payload) :
    ((dispatch MAX_RETRIES .EXECUTE c .STEP_FAILED p).state = .ERROR ∧
      (dispatch MAX_RETRIES .EXECUTE c .STEP_FAILED p).ctx.lastError.isSome = true ∧
      (dispatch MAX_RETRIES .EXECUTE c .STEP_FAILED p).ctx.retryCount = c.retryCount) ∧
    (∀ err, p.error = some err →
      (dispatch MAX_RETRIES .EXECUTE c .MCP_RESPONSE_RECEIVED p).state = .ERROR ∧
      (dispatch MAX_RETRIES .EXECUTE c .MCP_RESPONSE_RECEIVED p).ctx.lastError = some err ∧
      (dispatch MAX_RETRIES .EXECUTE c .MCP_RESPONSE_RECEIVED p).ctx.retryCount
        = c.retryCount) ∧
    ((dispatch MAX_RETRIES .WAIT_LLM_RESPONSE c .LLM_RESPONSE_FAILED p).state = .ERROR ∧
      (dispatch MAX_RETRIES .WAIT_LLM_RESPONSE c .LLM_RESPONSE_FAILED p).ctx.lastError.isSome
        = true ∧
      (dispatch MAX_RETRIES .WAIT_LLM_RESPONSE c .LLM_RESPONSE_FAILED p).ctx.retryCount
        = c.retryCount) := by
  refine ⟨⟨?_, ?_, ?_⟩, fun err he => ⟨?_, ?_, ?_⟩, ?_, ?_, ?_⟩ <;>
    simp [dispatch, dispatchExecute, dispatchWaitLlm, MAX_RETRIES, *]

/-- Witness for C3 at a concrete mid-session context and error payload. -/
theorem c3_zero_retries_witness :
    (dispatch MAX_RETRIES .EXECUTE execCtx .STEP_FAILED errPayload).state = .ERROR ∧
    (dispatch MAX_RETRIES .EXECUTE execCtx .MCP_RESPONSE_RECEIVED errPayload).ctx.lastError
      = some "boom" ∧
    (dispatch MAX_RETRIES .WAIT_LLM_RESPONSE execCtx .LLM_RESPONSE_FAILED errPayload).state
      = .ERROR := by
  have h := c3_zero_retries_every_failure_fatal execCtx errPayload
  exact ⟨h.1.1, (h.2.1 "boom" rfl).2.1, h.2.2.1⟩

/-- C4, counterexample: with a healthy MCP session and tool list, a parse
result of `[]` is dispatched as `PARSING_COMPLETE` (an empty JS array is
truthy), the FSM stays in `IDLE` — but `startSession` does not report a
parsing-failure error: it returns successfully with an empty step list. -/
theorem c4_claim_false :
    startSession (.ok ["browser_navigate", "browser_click", "browser_snapshot"]) []
      = .ok [] .IDLE resetContext := by decide

/-- C4, amended: if parsing yields `[]` (and session initialization
succeeded with a nonempty tools list), the FSM never leaves `IDLE` — no step
is ever offered for confirmation and the context is reset — but
`startSession` does not report a parsing-failure error to its caller: it
returns normally with the empty step list. -/
theorem c4_empty_parse_returns_ok_idle (toolsList : List String) (h : toolsList ≠ []) :
    startSession (.ok toolsList) [] = .ok [] .IDLE resetContext := by
  cases toolsList with
  | nil => exact absurd rfl h
  | cons hd tl => rfl

/-- Witness for C4's amended theorem at a one-tool catalog. -/
theorem c4_empty_parse_returns_ok_idle_witness :
    (["browser_navigate"] : List String) ≠ [] ∧
    startSession (.ok ["browser_navigate"]) [] = .ok [] .IDLE resetContext :=
  ⟨by decide, c4_empty_parse_returns_ok_idle ["browser_navigate"] (by decide)⟩

/-- C5: a JSON-RPC response delivered on the push stream for a request of a
session that is no longer the active one is silently dropped — the SSE
handler can only dispatch it into the session that issued the request, never
into a resurrected or different (newer) session's FSM, because every path
that installs a new session first closes the old stream. -/
theorem c5_stale_response_dropped (ops : List LifeOp) (r : LifeRequest)
    (hr : r ∈ (lifeRun ops).requests) :
    (∀ s', deliverResponse (lifeRun ops) r = some s' → s' = r.sid) ∧
    ((lifeRun ops).session ≠ some r.sid → deliverResponse (lifeRun ops) r = none) := by
  obtain ⟨h1, h2, h3, h4⟩ := lifeInv_run ops
  constructor
  · intro s' hs'
    unfold deliverResponse at hs'
    split at hs'
    · rename_i hstream
      rw [h4 r hr hstream] at hs'
      injection hs' with hs2
      exact hs2.symm
    · exact Option.noConfusion hs'
  · intro hne
    unfold deliverResponse
    split
    · rename_i hstream
      exact absurd (h4 r hr hstream) hne
    · rfl

/-- Witness for C5: a session starts, issues a request, then hits a fatal
error (session reset); the late response for its request is dropped. -/
theorem c5_stale_response_dropped_witness :
    ({ sid := 0, stream := 0 } : LifeRequest)
        ∈ (lifeRun [.startSessionOk, .issueRequest, .sessionError]).requests ∧
    (lifeRun [.startSessionOk, .issueRequest, .sessionError]).session ≠ some 0 ∧
    deliverResponse (lifeRun [.startSessionOk, .issueRequest, .sessionError])
      { sid := 0, stream := 0 } = none := by
  refine ⟨by decide, by decide, ?_⟩
  exact (c5_stale_response_dropped [.startSessionOk, .issueRequest, .sessionError]
    { sid := 0, stream := 0 } (by decide)).2 (by decide)

/-- C6: evidence for the snapshot-handling bug.  In `EXECUTE`, with a
snapshot already stored, a successful remote result that carries no snapshot
does NOT leave the stored `latestSnapshot` in place: `fsm.ts:165` assigns
`payload?.snapshot ?? null` unconditionally (despite its own comment
"Store snapshot if present"), so the stored snapshot is cleared to null. -/
theorem c6_success_without_snapshot_clears_snapshot :
    c6Ctx.latestSnapshot = some "- Page Snapshot: body" ∧
    (dispatch MAX_RETRIES .EXECUTE c6Ctx .MCP_RESPONSE_RECEIVED emptyPayload).state
      = .WAIT_CONFIRM ∧
    (dispatch MAX_RETRIES .EXECUTE c6Ctx .MCP_RESPONSE_RECEIVED emptyPayload).ctx.latestSnapshot
      = none := by decide

/-- C7: in every reachable FSM state (under the environment constraint that
refined steps keep the tool name of the step being refined, which the
orchestrator and the refinement bridge guarantee), the step exposed as
`stepToConfirm` is never a `browser_snapshot` step: the sequencer skips such
steps when selecting the first executable step and every subsequent one. -/
theorem c7_stepToConfirm_never_snapshot (s : OrchestratorState) (c : FsmContext)
    (h : FsmReachable s c) (st : McpToolCall) (hst : c.stepToConfirm = some st) :
    st.tool_name ≠ "browser_snapshot" :=
  (confirmInv_reachable s c h).1 st hst

/-- Witness for C7: parsing `[snapshot, navigate]` reaches `WAIT_CONFIRM`
offering the navigate step, which is not a snapshot step. -/
theorem c7_stepToConfirm_never_snapshot_witness :
    (dispatch MAX_RETRIES .IDLE resetContext .PARSING_COMPLETE
        { steps := some [snapshotStep, navStep] }).ctx.stepToConfirm = some navStep ∧
    navStep.tool_name ≠ "browser_snapshot" := by
  refine ⟨by decide, ?_⟩
  exact c7_stepToConfirm_never_snapshot _ _
    (FsmReachable.step MAX_RETRIES .IDLE resetContext .PARSING_COMPLETE
      { steps := some [snapshotStep, navStep] } FsmReachable.init
      (fun _ he _ => OrchestratorEvent.noConfusion he))
    navStep (by decide)

/-- C8: within a session, `currentStepIndex` is monotonically non-decreasing:
no dispatch of any event from an in-session state (any state other than
`IDLE`) that keeps the session alive (does not land in `IDLE`) decreases it. -/
theorem c8_currentStepIndex_monotone (m : Nat) (s : OrchestratorState) (c : FsmContext)
    (e : OrchestratorEvent) (p : Payload) (hs : s ≠ .IDLE)
    (hs2 : (dispatch m s c e p).state ≠ .IDLE) :
    c.currentStepIndex ≤ (dispatch m s c e p).ctx.currentStepIndex := by
  cases s
  case IDLE => exact absurd rfl hs
  case WAIT_CONFIRM =>
    cases e
    case CONFIRM_STEP =>
      by_cases hcond : (c.stepToConfirm.isSome && (c.currentStepIndex != -1)) = true <;>
        simp [dispatch, dispatchWaitConfirm, hcond]
    case REJECT_STEP => exact absurd rfl hs2
    case CANCEL_SESSION => exact absurd rfl hs2
    all_goals exact le_refl _
  case EXECUTE =>
    cases e
    case MCP_RESPONSE_RECEIVED =>
      rcases hpe : p.error with _ | err
      · by_cases hne : findNextExecutableStep c.steps c.currentStepIndex = -1
        · exfalso
          apply hs2
          simp [dispatch, dispatchExecute, hpe, hne]
        · rcases findNextExecutableStep_ne_neg_one c.steps c.currentStepIndex hne
            with ⟨k, hk, hlt, st', hget, hsnap⟩
          have hkne : ((k : Nat) : Int) ≠ -1 := by omega
          simp only [dispatch, dispatchExecute, hpe]
          rw [hk, if_pos hkne]
          split
          · split
            · exact le_of_lt hlt
            · exact le_of_lt hlt
          · exact le_of_lt hlt
      · by_cases h : c.retryCount < m <;> simp [dispatch, dispatchExecute, hpe, h]
    case STEP_FAILED =>
      by_cases h : c.retryCount < m <;> simp [dispatch, dispatchExecute, h]
    case CANCEL_SESSION => exact absurd rfl hs2
    all_goals exact le_refl _
  case WAIT_MCP_RESPONSE => exact le_refl _
  case WAIT_LLM_RESPONSE =>
    cases e
    case CANCEL_SESSION =>
      refine absurd ?_ hs2
      rcases hrs : p.refinedStep with _ | r <;> simp [dispatch, dispatchWaitLlm, hrs]
    case LLM_RESPONSE_FAILED =>
      rcases hrs : p.refinedStep with _ | r <;> by_cases h : c.retryCount < m <;>
        simp [dispatch, dispatchWaitLlm, hrs, h]
    all_goals
      rcases hrs : p.refinedStep with _ | r <;> simp [dispatch, dispatchWaitLlm, hrs]
  case ERROR =>
    cases e
    case RESET => exact absurd rfl hs2
    case CANCEL_SESSION => exact absurd rfl hs2
    all_goals exact le_refl _

/-- Witness for C8: a successful execution result advances the index from 0
to 1 without ever decreasing it. -/
theorem c8_currentStepIndex_monotone_witness :
    (OrchestratorState.EXECUTE ≠ OrchestratorState.IDLE) ∧
    ((dispatch MAX_RETRIES .EXECUTE execCtx .MCP_RESPONSE_RECEIVED emptyPayload).state
      ≠ .IDLE) ∧
    execCtx.currentStepIndex
      ≤ (dispatch MAX_RETRIES .EXECUTE execCtx .MCP_RESPONSE_RECEIVED emptyPayload).ctx.currentStepIndex := by
  refine ⟨by decide, by decide, ?_⟩
  exact c8_currentStepIndex_monotone MAX_RETRIES .EXECUTE execCtx .MCP_RESPONSE_RECEIVED
    emptyPayload (by decide) (by decide)

/-- C9: the refinement bridge is a no-op on steps needing no refinement: if
no argument value equals the `<UNKNOWN>` sentinel then, for every snapshot
and every behaviour of the external LLM collaborator,
`refineStepArgumentsWithSnapshot` returns the call unchanged and the
collaborator is not invoked. -/
theorem c9_refine_noop_without_unknown
    (llm : String → List (String × Value) → String → Except String (List (String × Value)))
    (callToRefine : Call) (snapshot : String)
    (h : ∀ kv ∈ callToRefine.params, kv.2 ≠ Value.vStr "<UNKNOWN>") :
    refineStepArgumentsWithSnapshot llm callToRefine snapshot
      = (false, RefineResult.refined callToRefine) := by
  have hneeds : (callToRefine.params.any fun kv => kv.2 == Value.vStr "<UNKNOWN>")
      = false := by
    rw [List.any_eq_false]
    intro kv hkv
    simpa using h kv hkv
  unfold refineStepArgumentsWithSnapshot
  simp only [hneeds, Bool.not_false, if_true]

/-- Witness for C9: a fully-resolved navigate call passes through the bridge
unchanged, with the collaborator never invoked. -/
theorem c9_refine_noop_witness :
    (navCall.params.any fun kv => kv.2 == Value.vStr "<UNKNOWN>") = false ∧
    refineStepArgumentsWithSnapshot (fun _ _ _ => Except.error "unused") navCall
      "- Page Snapshot" = (false, RefineResult.refined navCall) := by
  refine ⟨by decide, ?_⟩
  exact c9_refine_noop_without_unknown _ navCall "- Page Snapshot" (by decide)

theorem dispatch_notifications (m : Nat) (s : OrchestratorState) (c : FsmContext)
    (e : OrchestratorEvent) (p : Payload) :
    (dispatch m s c e p).notifications
      = if (dispatch m s c e p).state ≠ s
        then [((dispatch m s c e p).state, (dispatch m s c e p).ctx)]
        else [] := rfl

/-- C10: `dispatch` fires the `onStateUpdate` callback exactly when the
dispatched event changed the state; in particular a failure retried within
the same state (re-entering `EXECUTE` or `WAIT_LLM_RESPONSE` with an
incremented `retryCount`) completes without any callback, so the FSM itself
triggers no re-issued execution or refinement action on a retry. -/
theorem c10_notify_iff_state_changed (m : Nat) (s : OrchestratorState) (c : FsmContext)
    (e : OrchestratorEvent) (p : Payload) :
    ((dispatch m s c e p).notifications
        = [((dispatch m s c e p).state, (dispatch m s c e p).ctx)]
      ↔ (dispatch m s c e p).state ≠ s) ∧
    ((dispatch m s c e p).notifications = [] ↔ (dispatch m s c e p).state = s) ∧
    (c.retryCount < m →
      (dispatch m .EXECUTE c .STEP_FAILED p).state = .EXECUTE ∧
      (dispatch m .EXECUTE c .STEP_FAILED p).notifications = [] ∧
      (dispatch m .WAIT_LLM_RESPONSE c .LLM_RESPONSE_FAILED p).state
        = .WAIT_LLM_RESPONSE ∧
      (dispatch m .WAIT_LLM_RESPONSE c .LLM_RESPONSE_FAILED p).notifications = []) := by
  refine ⟨?_, ?_, ?_⟩
  · rw [dispatch_notifications]
    by_cases h : (dispatch m s c e p).state = s <;> simp [h]
  · rw [dispatch_notifications]
    by_cases h : (dispatch m s c e p).state = s <;> simp [h]
  · intro h
    have hsf := dispatch_stepFailed_retry m c p h
    have hllm := dispatch_llmFailed_retry m c p h
    refine ⟨hsf.1, ?_, hllm.1, ?_⟩
    · rw [dispatch_notifications, if_neg]
      intro hcontra
      exact hcontra hsf.1
    · rw [dispatch_notifications, if_neg]
      intro hcontra
      exact hcontra hllm.1

/-- Witness for C10: a retried failure fires no callback, a state-changing
event fires exactly one. -/
theorem c10_notify_iff_state_changed_witness :
    (dispatch 1 .EXECUTE execCtx .STEP_FAILED emptyPayload).notifications = [] ∧
    (dispatch 1 .IDLE resetContext .PARSING_FAILED emptyPayload).notifications
      = [((dispatch 1 .IDLE resetContext .PARSING_FAILED emptyPayload).state,
          (dispatch 1 .IDLE resetContext .PARSING_FAILED emptyPayload).ctx)] := by
  have h1 := c10_notify_iff_state_changed 1 .EXECUTE execCtx .STEP_FAILED emptyPayload
  have h2 := c10_notify_iff_state_changed 1 .IDLE resetContext .PARSING_FAILED emptyPayload
  exact ⟨(h1.2.2 (by decide)).2.1, h2.1.mpr (by decide)⟩

end LlWebAgent
